import Mathlib

/-!
Shallow embedding of the core logic of `src/fetch.js` from the
polymarket-breaking-dashboard repository: the breaking analyzer
(`analyzeBreaking`), the signal classifier (`getSignal`), the breaking
criteria computed in `main`, the ranking comparator passed to
`analyzed.sort`, and the mock-data fallback (`generateMockData`).

Numbers are modelled at two levels.  The rational-valued model (`Candle`,
`analyzeBreaking`) covers runs in which every `parseFloat` of a candle
field yields a finite number or `NaN`: a field is `none` for a `NaN`
parse and `some q` for the finite value `q`.  The JavaScript-number model
(`JsNum`, `analyzeBreakingJs`) additionally represents the infinities,
which in JavaScript are truthy and therefore pass through the `|| 0`
idiom unchanged; `analyzeBreakingJs_refines` shows the rational model is
exactly the finite-or-`NaN` fragment of the JavaScript one.
-/

/-- One candle of the series handed to `analyzeBreaking`.  The source
represents a candle as the array `[time, open, high, low, close, volume]`
and reads only index 4 (`close`) and index 5 (`volume`); the other entries
are never touched, so only those two fields are modelled.  A field is
`none` when `parseFloat` of the underlying JSON value returns `NaN`
(a missing or non-numeric value).  Parses that return an infinity are
outside this rational-valued model; they are captured by the
`JsNum`-valued refinement below, of which this model is the
finite-or-`NaN` fragment (`analyzeBreakingJs_refines`). -/
structure Candle where
  close : Option ℚ
  volume : Option ℚ
  deriving Repr, DecidableEq, Inhabited

/-- The idiom `parseFloat(x) || 0` from `src/fetch.js`, restricted to the
rational fragment: a `NaN` parse (and an actual parsed `0`, which is
falsy in JS) yields `0`; any other finite parse yields its value.  The
behavior on infinite parses, which `|| 0` leaves unchanged, is modelled
by `jsOrZero` below. -/
def parseOr0 (v : Option ℚ) : ℚ := v.getD 0

/-- Array indexing `candles[i]` on a candle series.  Every access in the
source is guarded by the length check, so the default value is never
relevant at the call sites. -/
def candleAt (cs : List Candle) (i : ℕ) : Candle := cs.getD i default

/-- The record returned by `analyzeBreaking` (fields `volume`, `avgVolume`,
`volumeRatio`, `priceChange`, `lastClose`). -/
structure Metrics where
  volume : ℚ
  avgVolume : ℚ
  volumeRatio : ℚ
  priceChange : ℚ
  lastClose : ℚ
  deriving Repr, DecidableEq

/-- `analyzeBreaking(candles)` from `src/fetch.js` (lines 70-95).  The
argument is `none` when the candle fetch returned `null`.  Returns `null`
(here `none`) for a missing series or one with fewer than 11 candles;
otherwise computes the last volume and close, the sum of the volumes at
indices `length-11 .. length-2` (the loop `for (i = length-11; i < length-1)`),
the trailing average over those 10 candles, the volume ratio with the
`avgVolume || 1` guard, and the relative price change with the
`prevClose > 0` guard. -/
def analyzeBreaking (candles : Option (List Candle)) : Option Metrics :=
  match candles with
  | none => none
  | some cs =>
    if cs.length < 11 then none else
    let last := candleAt cs (cs.length - 1)
    let prev := candleAt cs (cs.length - 2)
    let lastVolume := parseOr0 last.volume
    let lastClose := parseOr0 last.close
    let volSum := ((List.range 10).map
      (fun k => parseOr0 (candleAt cs (cs.length - 11 + k)).volume)).sum
    let avgVolume := volSum / 10
    let prevClose := parseOr0 prev.close
    let priceChange := if 0 < prevClose then (lastClose - prevClose) / prevClose else 0
    some { volume := lastVolume
           avgVolume := avgVolume
           volumeRatio := lastVolume / (if avgVolume = 0 then 1 else avgVolume)
           priceChange := priceChange
           lastClose := lastClose }

/-- The closed set of signal categories returned by `getSignal`
(lines 98-129): each constructor corresponds to one labelled object
literal in the source, in order of appearance. -/
inductive Signal where
  | buyYes
  | avoidSell
  | uptrend
  | downtrend
  | waitSignal
  deriving Repr, DecidableEq

/-- `getSignal(yesPrice, priceChange)` from `src/fetch.js` (lines 98-129),
with each branch mapped to its `Signal` category (the label, style tag and
rationale strings carried by the source objects are presentation data and
not modelled). -/
def getSignal (yesPrice priceChange : ℚ) : Signal :=
  if yesPrice < 0.40 then .buyYes
  else if yesPrice > 0.60 then .avoidSell
  else if yesPrice < 0.48 ∧ priceChange > 0.005 then .uptrend
  else if yesPrice > 0.52 ∧ priceChange < -0.005 then .downtrend
  else .waitSignal

/-- The breaking criteria computed inline in `main` (lines 178-181):
`analysis.volumeRatio > 3 && Math.abs(analysis.priceChange) > 0.01 &&
Math.max(yes, no) - Math.min(yes, no) > 0.02`. -/
def isBreaking (yes no volumeRatio priceChange : ℚ) : Bool :=
  decide (volumeRatio > 3) && decide (|priceChange| > 0.01) &&
    decide (max yes no - min yes no > 0.02)

/-- One entry of the `analyzed` array built by `main` (lines 189-203),
restricted to the fields the ranking and the report shape depend on:
`id`, the parsed outcome prices, `volumeNow` (= `analysis.volume`), the
signal and the `isBreaking` flag.  The formatted string fields
(`question`, `spread`, `volumeRatio`, `priceChange`, timestamps, `url`)
are presentation data and not modelled. -/
structure Row where
  id : String
  yes : ℚ
  no : ℚ
  volumeNow : ℚ
  signal : Signal
  isBreaking : Bool
  deriving Repr, DecidableEq

/-- The per-market data consumed by one iteration of the loop in `main`
(lines 147-204): whether the Gamma lookup found the market (`continue`
otherwise), the market's `outcomePrices` after JSON and float parsing
(`none` when `JSON.parse` throws, in which case the market is skipped),
and the fetched candles (`none` when `fetchCandles` failed). -/
structure MarketInput where
  id : String
  gammaFound : Bool
  prices : Option (List ℚ)
  candles : Option (List Candle)

/-- The body of the per-market loop in `main` (lines 147-204) as a pure
function from the fetched data to the pushed row: `none` corresponds to
`continue` (Gamma miss, unparsable or too-short `outcomePrices`, a zero
outcome price, or a `null` analysis), `some` to `analyzed.push`. -/
def processMarket (m : MarketInput) : Option Row :=
  if ¬ m.gammaFound then none
  else match m.prices with
  | none => none
  | some prices =>
    if prices.length < 2 then none
    else
      let yes := prices.getD 0 0
      let no := prices.getD 1 0
      if yes = 0 ∨ no = 0 then none
      else match analyzeBreaking m.candles with
      | none => none
      | some analysis =>
        let breaking := isBreaking yes no analysis.volumeRatio analysis.priceChange
        some { id := m.id
               yes := yes
               no := no
               volumeNow := analysis.volume
               signal := getSignal yes analysis.priceChange
               isBreaking := breaking }

/-- The comparator passed to `analyzed.sort` (lines 207-210), phrased as
the ordering relation it induces: `marketLE a b` holds exactly when the
comparator value on `(a, b)` is `≤ 0`, i.e. when a stable sort may keep
`a` before `b`.  The comparator returns `b.isBreaking - a.isBreaking`
(booleans coerced to 0/1) when the flags differ, else
`b.volumeNow - a.volumeNow`. -/
def marketLE (a b : Row) : Bool :=
  if a.isBreaking = b.isBreaking then decide (b.volumeNow ≤ a.volumeNow)
  else a.isBreaking

/-- `analyzed.sort(comparator)` (lines 207-210): JavaScript
`Array.prototype.sort` is a stable sort, modelled by the stable
`List.mergeSort` under the comparator relation `marketLE`. -/
def sortMarkets (l : List Row) : List Row := l.mergeSort marketLE

/-- The output artifact shape (lines 212-217): `generatedAt` is a wall
clock timestamp and not modelled. -/
structure Report where
  totalMarkets : ℕ
  breakingCount : ℕ
  markets : List Row
  deriving Repr, DecidableEq

/-- Assembly of the output record in `main` (lines 206-217): sort the
analyzed rows, then emit the counts and the sorted list. -/
def buildReport (ms : List MarketInput) : Report :=
  let analyzed := sortMarkets (ms.filterMap processMarket)
  { totalMarkets := analyzed.length
    breakingCount := (analyzed.filter (fun r => r.isBreaking)).length
    markets := analyzed }

/-- The static example dataset written by `generateMockData`
(lines 230-302), restricted to the modelled fields: three markets, the
first flagged breaking, with `totalMarkets: 3` and `breakingCount: 1`
hard-coded in the source. -/
def mockReport : Report :=
  { totalMarkets := 3
    breakingCount := 1
    markets := [
      { id := "demo1", yes := 0.485, no := 0.515, volumeNow := 45000,
        signal := .uptrend, isBreaking := true },
      { id := "demo2", yes := 0.520, no := 0.480, volumeNow := 12000,
        signal := .waitSignal, isBreaking := false },
      { id := "demo3", yes := 0.320, no := 0.680, volumeNow := 8500,
        signal := .buyYes, isBreaking := false } ] }

/-- The run's output artifact as a function of its environment: the
credential check at lines 15-19 (`generateMockData` and exit when any of
the three CLOB credentials is missing) and the top-level `catch` at
lines 223-226 (`generateMockData` when the upstream market-list call
fails, modelled by `upstream = none`); otherwise `main` assembles the
report from the fetched markets. -/
def runOutput (credsPresent : Bool) (upstream : Option (List MarketInput)) : Report :=
  if ¬ credsPresent then mockReport
  else match upstream with
  | none => mockReport
  | some ms => buildReport ms

/-- Replaces every candle field whose parse failed by a successfully
parsed `0`, for stating that failed parses contribute `0` to the
metrics. -/
def cleanse (c : Candle) : Candle :=
  { close := some (parseOr0 c.close), volume := some (parseOr0 c.volume) }

/-- Market A of the sorting example: breaking, `volumeNow` 10. -/
def rowA : Row :=
  { id := "A", yes := 0.5, no := 0.5, volumeNow := 10,
    signal := .waitSignal, isBreaking := true }

/-- Market B of the sorting example: not breaking, `volumeNow` 1000. -/
def rowB : Row :=
  { id := "B", yes := 0.5, no := 0.5, volumeNow := 1000,
    signal := .waitSignal, isBreaking := false }

/-- Market C of the sorting example: breaking, `volumeNow` 5. -/
def rowC : Row :=
  { id := "C", yes := 0.5, no := 0.5, volumeNow := 5,
    signal := .waitSignal, isBreaking := true }

/-- A candle with zero close and zero volume, used in concrete series. -/
def flatCandle : Candle := { close := some 0, volume := some 0 }

/-- A candle with close `0.40` and volume `1`, used in concrete series. -/
def upCandle : Candle := { close := some 0.40, volume := some 1 }

/-- An 11-candle series whose trailing window has all volumes `1` and whose
last candle has volume `4` and close `0.41` after a previous close of
`0.40`. -/
def witCandles : List Candle :=
  [upCandle, upCandle, upCandle, upCandle, upCandle,
   upCandle, upCandle, upCandle, upCandle, upCandle,
   { close := some 0.41, volume := some 4 }]

/-- An 11-candle series whose trailing window has all volumes `0` and whose
last candle has volume `1`. -/
def zeroWindowCandles : List Candle :=
  [flatCandle, flatCandle, flatCandle, flatCandle, flatCandle,
   flatCandle, flatCandle, flatCandle, flatCandle, flatCandle,
   { close := some 0, volume := some 1 }]

/-- A JavaScript number as produced by `parseFloat` on a candle field:
`NaN` (from a missing or non-numeric value), positive or negative
`Infinity` (for example from `parseFloat("Infinity")` or an overflowing
numeric literal), or a finite value modelled as a rational.  The
negative-zero distinction is not modelled. -/
inductive JsNum where
  | nan
  | posInf
  | negInf
  | fin (q : ℚ)
  deriving Repr, DecidableEq, Inhabited

/-- JavaScript falsiness of a number: `NaN` and `0` are falsy, every
other number (including the infinities) is truthy. -/
def jsFalsy : JsNum → Bool
  | .nan => true
  | .fin q => decide (q = 0)
  | _ => false

/-- The idiom `parseFloat(x) || 0` on the full JavaScript number domain:
a falsy result (`NaN` or `0`) is replaced by `0`; any other value,
including an infinity, passes through unchanged. -/
def jsOrZero (v : JsNum) : JsNum := if jsFalsy v then .fin 0 else v

/-- JavaScript addition: `NaN` is absorbing, opposite infinities give
`NaN`, an infinity otherwise dominates, finite values add exactly. -/
def jsAdd : JsNum → JsNum → JsNum
  | .nan, _ => .nan
  | _, .nan => .nan
  | .posInf, .negInf => .nan
  | .posInf, _ => .posInf
  | .negInf, .posInf => .nan
  | .negInf, _ => .negInf
  | .fin _, .posInf => .posInf
  | .fin _, .negInf => .negInf
  | .fin a, .fin b => .fin (a + b)

/-- JavaScript subtraction: `NaN` is absorbing, an infinity minus itself
gives `NaN`, an infinity otherwise dominates with its sign, finite
values subtract exactly. -/
def jsSub : JsNum → JsNum → JsNum
  | .nan, _ => .nan
  | _, .nan => .nan
  | .posInf, .posInf => .nan
  | .posInf, _ => .posInf
  | .negInf, .negInf => .nan
  | .negInf, _ => .negInf
  | .fin _, .posInf => .negInf
  | .fin _, .negInf => .posInf
  | .fin a, .fin b => .fin (a - b)

/-- JavaScript division: `NaN` is absorbing, an infinity over an
infinity gives `NaN`, an infinity over a finite value keeps an infinity
with the combined sign, a finite value over an infinity gives `0`, a
nonzero finite value over `0` gives a signed infinity and `0 / 0` gives
`NaN`; otherwise exact rational division.  Division by zero follows the
positive-zero sign, since negative zero is not modelled. -/
def jsDiv : JsNum → JsNum → JsNum
  | .nan, _ => .nan
  | _, .nan => .nan
  | .posInf, .posInf => .nan
  | .posInf, .negInf => .nan
  | .negInf, .posInf => .nan
  | .negInf, .negInf => .nan
  | .posInf, .fin b => if 0 ≤ b then .posInf else .negInf
  | .negInf, .fin b => if 0 ≤ b then .negInf else .posInf
  | .fin _, .posInf => .fin 0
  | .fin _, .negInf => .fin 0
  | .fin a, .fin b =>
    if b = 0 then (if a = 0 then .nan else if 0 < a then .posInf else .negInf)
    else .fin (a / b)

/-- The comparison `x > 0` on a JavaScript number: false for `NaN` and
negative infinity, true for positive infinity, exact otherwise. -/
def jsGtZero : JsNum → Bool
  | .nan => false
  | .posInf => true
  | .negInf => false
  | .fin q => decide (0 < q)

/-- A candle whose two read fields carry the raw `parseFloat` result
over the full JavaScript number domain, including possible `NaN` and
`Infinity` values. -/
structure JsCandle where
  close : JsNum
  volume : JsNum
  deriving Repr, DecidableEq, Inhabited

/-- Array indexing `candles[i]` on a JavaScript-number candle series;
every access in the source is guarded by the length check. -/
def jsCandleAt (cs : List JsCandle) (i : ℕ) : JsCandle := cs.getD i default

/-- The record returned by `analyzeBreaking`, with fields in the full
JavaScript number domain. -/
structure JsMetrics where
  volume : JsNum
  avgVolume : JsNum
  volumeRatio : JsNum
  priceChange : JsNum
  lastClose : JsNum
  deriving Repr, DecidableEq

/-- `analyzeBreaking(candles)` from `src/fetch.js` (lines 70-95) over the
full JavaScript number domain: the same computation as `analyzeBreaking`,
but with `parseFloat` results kept as `JsNum`, so that the `|| 0` idiom
coerces only falsy values (`NaN` and `0`) and lets the infinities pass
through, as JavaScript does.  The accumulation `volSum += ...` is the
left fold of `jsAdd` starting from `0`. -/
def analyzeBreakingJs (candles : Option (List JsCandle)) : Option JsMetrics :=
  match candles with
  | none => none
  | some cs =>
    if cs.length < 11 then none else
    let last := jsCandleAt cs (cs.length - 1)
    let prev := jsCandleAt cs (cs.length - 2)
    let lastVolume := jsOrZero last.volume
    let lastClose := jsOrZero last.close
    let volSum := ((List.range 10).map
      (fun k => jsOrZero (jsCandleAt cs (cs.length - 11 + k)).volume)).foldl jsAdd (.fin 0)
    let avgVolume := jsDiv volSum (.fin 10)
    let prevClose := jsOrZero prev.close
    let priceChange := if jsGtZero prevClose
      then jsDiv (jsSub lastClose prevClose) prevClose else .fin 0
    some { volume := lastVolume
           avgVolume := avgVolume
           volumeRatio := jsDiv lastVolume (if jsFalsy avgVolume then .fin 1 else avgVolume)
           priceChange := priceChange
           lastClose := lastClose }

/-- Replaces a parse that did not produce a finite number (`NaN` or an
infinity) by a parsed `0`, which is what the original claim asserts the
analyzer effectively does to every such field. -/
def jsZeroNonFinite : JsNum → JsNum
  | .fin q => .fin q
  | _ => .fin 0

/-- Candle-level version of `jsZeroNonFinite`, for stating that failed
parses contribute `0`. -/
def jsCleanse (c : JsCandle) : JsCandle :=
  { close := jsZeroNonFinite c.close, volume := jsZeroNonFinite c.volume }

/-- Whether a parsed field is finite or `NaN`, i.e. not an infinity. -/
def jsFiniteOrNan : JsNum → Bool
  | .posInf => false
  | .negInf => false
  | _ => true

/-- A candle with close `0` and volume `1` in the JavaScript-number
model. -/
def oneVolCandle : JsCandle := { close := .fin 0, volume := .fin 1 }

/-- An 11-candle series whose first window volume parses to `Infinity`. -/
def infCandles : List JsCandle :=
  [{ close := .fin 0, volume := .posInf }, oneVolCandle, oneVolCandle, oneVolCandle,
   oneVolCandle, oneVolCandle, oneVolCandle, oneVolCandle, oneVolCandle, oneVolCandle,
   { close := .fin 0, volume := .fin 4 }]

/-- An 11-candle series with a failed (`NaN`) parse and no infinities. -/
def jsNanCandles : List JsCandle :=
  [{ close := .nan, volume := .nan }, oneVolCandle, oneVolCandle, oneVolCandle,
   oneVolCandle, oneVolCandle, oneVolCandle, oneVolCandle, oneVolCandle, oneVolCandle,
   { close := .fin 0, volume := .fin 4 }]

/-- Interprets a field of the rational-valued model inside the
JavaScript number domain: an absent (`NaN`) parse is `nan`, a present
one is finite. -/
def toJsNum : Option ℚ → JsNum
  | none => .nan
  | some q => .fin q

/-- Interprets a rational-model candle in the JavaScript number
domain. -/
def toJsCandle (c : Candle) : JsCandle :=
  { close := toJsNum c.close, volume := toJsNum c.volume }

/-- Interprets a rational-model metrics record in the JavaScript number
domain. -/
def toJsMetrics (m : Metrics) : JsMetrics :=
  { volume := .fin m.volume
    avgVolume := .fin m.avgVolume
    volumeRatio := .fin m.volumeRatio
    priceChange := .fin m.priceChange
    lastClose := .fin m.lastClose }

/-- A length-10 candle series, one candle short of analyzable. -/
def shortCandles : List Candle :=
  [flatCandle, flatCandle, flatCandle, flatCandle, flatCandle,
   flatCandle, flatCandle, flatCandle, flatCandle, flatCandle]

/-- A market input whose earlier loop guards all pass but whose candle
series is `shortCandles`. -/
def shortInput : MarketInput :=
  { id := "s", gammaFound := true, prices := some [0.5, 0.5],
    candles := some shortCandles }

/-! Helper lemmas shared by the claim theorems. -/

/-- Unfolding of `analyzeBreaking` on a series that passes the length
check. -/
theorem analyzeBreaking_eq (cs : List Candle) (h : ¬ cs.length < 11) :
    analyzeBreaking (some cs) = some
      { volume := parseOr0 (candleAt cs (cs.length - 1)).volume
        avgVolume := ((List.range 10).map
          (fun k => parseOr0 (candleAt cs (cs.length - 11 + k)).volume)).sum / 10
        volumeRatio := parseOr0 (candleAt cs (cs.length - 1)).volume /
          (if ((List.range 10).map
              (fun k => parseOr0 (candleAt cs (cs.length - 11 + k)).volume)).sum / 10 = 0
            then 1
            else ((List.range 10).map
              (fun k => parseOr0 (candleAt cs (cs.length - 11 + k)).volume)).sum / 10)
        priceChange := if 0 < parseOr0 (candleAt cs (cs.length - 2)).close
          then (parseOr0 (candleAt cs (cs.length - 1)).close -
              parseOr0 (candleAt cs (cs.length - 2)).close) /
            parseOr0 (candleAt cs (cs.length - 2)).close
          else 0
        lastClose := parseOr0 (candleAt cs (cs.length - 1)).close } := by
  simp only [analyzeBreaking]
  rw [if_neg h]

/-- A slice of a candle series written with `drop` and `take` equals the
list of its indexed elements. -/
theorem take_drop_window (cs : List Candle) (k : ℕ) :
    ∀ i, i + k ≤ cs.length →
      (cs.drop i).take k = (List.range k).map (fun j => candleAt cs (i + j)) := by
  induction k with
  | zero => intro i _; simp
  | succ k ih =>
    intro i h
    have hi : i < cs.length := by omega
    rw [List.drop_eq_getElem_cons hi, List.take_succ_cons, List.range_succ_eq_map,
      List.map_cons, List.map_map]
    congr 1
    · simp [candleAt, List.getD_eq_getElem?_getD, List.getElem?_eq_getElem hi]
    · rw [ih (i + 1) (by omega)]
      apply List.map_congr_left
      intro j _
      show candleAt cs (i + 1 + j) = candleAt cs (i + (j + 1))
      congr 1
      omega

/-- The last candle written with `getLast?` equals the one at index
`length - 1`. -/
theorem candleAt_last (cs : List Candle) :
    (cs.getLast?).getD default = candleAt cs (cs.length - 1) := by
  simp [candleAt, List.getD_eq_getElem?_getD, List.getLast?_eq_getElem?]

/-! Claim theorems. -/

/-- C1: for every market, `isBreaking` is true if and only if all three
threshold conditions hold strictly and simultaneously
(`volumeRatio > 3`, `abs(priceChange) > 0.01`, `abs(yes - no) > 0.02`);
and at the boundary `volumeRatio` exactly `3` yields `false`. -/
theorem isBreaking_iff (yes no volumeRatio priceChange : ℚ) :
    (isBreaking yes no volumeRatio priceChange = true ↔
      volumeRatio > 3 ∧ |priceChange| > 0.01 ∧ |yes - no| > 0.02) ∧
    (volumeRatio = 3 → isBreaking yes no volumeRatio priceChange = false) := by
  constructor
  · simp [isBreaking, max_sub_min_eq_abs, abs_sub_comm no yes, and_assoc]
  · intro h
    simp [isBreaking, h]

/-- Witness for C1 at the boundary input `volumeRatio = 3`. -/
theorem isBreaking_iff_wit : isBreaking 0.5 0.6 3 0.02 = false :=
  (isBreaking_iff 0.5 0.6 3 0.02).2 rfl

/-- C2: the signal classifier is a pure total function of
`(yesPrice, priceChange)` evaluated as an ordered decision list with
first match winning; every input yields exactly the category of the first
matching rule, in rule order 1 to 5. -/
theorem getSignal_rules (yes pc : ℚ) :
    (getSignal yes pc = .buyYes ↔ yes < 0.40) ∧
    (getSignal yes pc = .avoidSell ↔ ¬ yes < 0.40 ∧ yes > 0.60) ∧
    (getSignal yes pc = .uptrend ↔
      ¬ yes < 0.40 ∧ ¬ yes > 0.60 ∧ (yes < 0.48 ∧ pc > 0.005)) ∧
    (getSignal yes pc = .downtrend ↔
      ¬ yes < 0.40 ∧ ¬ yes > 0.60 ∧ ¬ (yes < 0.48 ∧ pc > 0.005) ∧
        (yes > 0.52 ∧ pc < -0.005)) ∧
    (getSignal yes pc = .waitSignal ↔
      ¬ yes < 0.40 ∧ ¬ yes > 0.60 ∧ ¬ (yes < 0.48 ∧ pc > 0.005) ∧
        ¬ (yes > 0.52 ∧ pc < -0.005)) := by
  unfold getSignal
  split_ifs <;> simp_all

/-- Witness for C2 at a concrete undervalued price. -/
theorem getSignal_rules_wit : getSignal 0.10 0 = Signal.buyYes :=
  (getSignal_rules 0.10 0).1.mpr (by norm_num)

/-- C3: for every candle series of length at least 11, `avgVolume` is the
arithmetic mean of the volume field over exactly the 10 candles at indices
`length - 11` to `length - 2` (the slice of the series just before the
last candle), and `volume` is the volume field of the last candle. -/
theorem analyzeBreaking_window (cs : List Candle) (h : 11 ≤ cs.length) :
    ∃ m, analyzeBreaking (some cs) = some m ∧
      m.avgVolume =
        (((cs.drop (cs.length - 11)).take 10).map (fun c => parseOr0 c.volume)).sum / 10 ∧
      m.volume = parseOr0 ((cs.getLast?).getD default).volume ∧
      ((cs.drop (cs.length - 11)).take 10).length = 10 := by
  refine ⟨_, analyzeBreaking_eq cs (by omega), ?_, ?_, ?_⟩
  · show ((List.range 10).map _).sum / 10 = _
    rw [take_drop_window cs 10 (cs.length - 11) (by omega), List.map_map]
    rfl
  · rw [candleAt_last]
  · rw [List.length_take, List.length_drop]
    omega

/-- Witness for C3 on a concrete 11-candle series. -/
theorem analyzeBreaking_window_wit :
    ((analyzeBreaking (some witCandles)).map Metrics.avgVolume).getD 0 = 1 ∧
    ((analyzeBreaking (some witCandles)).map Metrics.volume).getD 0 = 4 := by
  obtain ⟨m, hm, havg, hvol, -⟩ := analyzeBreaking_window witCandles (by norm_num [witCandles])
  rw [hm]
  simp only [Option.map_some', Option.getD_some]
  rw [havg, hvol]
  norm_num [witCandles, upCandle, parseOr0]

/-- C4: for every candle series of length less than 11 the analyzer
returns the explicit absent result `none` (never an exception, which the
total embedding cannot raise, and never a default-zero record), and the
caller skips such a market: its report contributes no row. -/
theorem analyzeBreaking_short (m : MarketInput) (cs : List Candle)
    (h : cs.length < 11) (hm : m.candles = some cs) :
    analyzeBreaking (some cs) = none ∧ analyzeBreaking none = none ∧
    processMarket m = none ∧
    ∀ ms : List MarketInput, (buildReport (m :: ms)).markets = (buildReport ms).markets := by
  have h1 : analyzeBreaking (some cs) = none := by simp [analyzeBreaking, h]
  have h2 : processMarket m = none := by
    rcases hg : m.gammaFound with _ | _ <;> rcases hp : m.prices with _ | prices <;>
      simp [processMarket, hg, hp, hm, h1, ite_self]
  refine ⟨h1, rfl, h2, fun ms => ?_⟩
  simp [buildReport, List.filterMap_cons, h2]

/-- Witness for C4 on a concrete length-10 series. -/
theorem analyzeBreaking_short_wit :
    analyzeBreaking (some shortCandles) = none ∧ processMarket shortInput = none :=
  ⟨(analyzeBreaking_short shortInput shortCandles (by norm_num [shortCandles]) rfl).1,
   (analyzeBreaking_short shortInput shortCandles (by norm_num [shortCandles]) rfl).2.2.1⟩

/-- C5: both divisions in the analyzer are guarded: `volumeRatio` equals
`volume / avgVolume` with `avgVolume` treated as 1 when it is zero,
`priceChange` equals `(lastClose - prevClose) / prevClose` when
`prevClose > 0` and is exactly 0 when `prevClose ≤ 0`, and `priceChange`
is positive exactly when `lastClose > prevClose > 0`. -/
theorem analyzeBreaking_guards (cs : List Candle) (m : Metrics) (h : 11 ≤ cs.length)
    (hm : analyzeBreaking (some cs) = some m) :
    m.volumeRatio = m.volume / (if m.avgVolume = 0 then 1 else m.avgVolume) ∧
    (parseOr0 (candleAt cs (cs.length - 2)).close ≤ 0 → m.priceChange = 0) ∧
    (0 < parseOr0 (candleAt cs (cs.length - 2)).close →
      m.priceChange = (m.lastClose - parseOr0 (candleAt cs (cs.length - 2)).close) /
        parseOr0 (candleAt cs (cs.length - 2)).close) ∧
    (0 < m.priceChange ↔
      0 < parseOr0 (candleAt cs (cs.length - 2)).close ∧
        parseOr0 (candleAt cs (cs.length - 2)).close < m.lastClose) := by
  rw [analyzeBreaking_eq cs (by omega)] at hm
  obtain rfl : m = _ := (Option.some.inj hm).symm
  set p := parseOr0 (candleAt cs (cs.length - 2)).close with hp
  refine ⟨rfl, ?_, ?_, ?_⟩
  · intro hle
    show (if 0 < p then _ else 0) = 0
    rw [if_neg (not_lt.mpr hle)]
  · intro hlt
    show (if 0 < p then _ else 0) = _
    rw [if_pos hlt]
  · show 0 < (if 0 < p then _ else 0) ↔ _
    by_cases hlt : 0 < p
    · rw [if_pos hlt, div_pos_iff]
      constructor
      · rintro (⟨h1, h2⟩ | ⟨h1, h2⟩)
        · exact ⟨hlt, by linarith⟩
        · exact absurd hlt (by linarith)
      · rintro ⟨h1, h2⟩
        exact Or.inl ⟨by linarith, hlt⟩
    · rw [if_neg hlt]
      simp only [lt_self_iff_false, false_iff]
      rintro ⟨h1, h2⟩
      exact hlt h1

/-- Witness for C5 on a concrete series with previous close `0.40` and
last close `0.41`. -/
theorem analyzeBreaking_guards_wit :
    (Metrics.mk 4 1 4 0.025 0.41).priceChange = (0.41 - 0.40) / 0.40 := by
  have hg := analyzeBreaking_guards witCandles (Metrics.mk 4 1 4 0.025 0.41)
    (by norm_num [witCandles])
    (by norm_num [analyzeBreaking, witCandles, upCandle, candleAt, parseOr0, List.range_succ])
  have h3 := hg.2.2.1 (by norm_num [witCandles, upCandle, candleAt, parseOr0])
  rw [h3]
  norm_num [witCandles, upCandle, candleAt, parseOr0]

/-- C6 as stated is false: when the common trailing-window volume `V` is
`0`, the `avgVolume || 1` guard divides the current volume by `1`, so a
current volume of `3 * 0 + 1` yields `volumeRatio = 1`, not `> 3`.  The
series `zeroWindowCandles` is an explicit counterexample with `V = 0`
and `ε = 1`. -/
theorem volumeRatio_spike_cex :
    ¬ (∀ (cs : List Candle) (V ε : ℚ), 11 ≤ cs.length →
        (∀ c ∈ (cs.drop (cs.length - 11)).take 10, parseOr0 c.volume = V) →
        parseOr0 (candleAt cs (cs.length - 1)).volume = 3 * V + ε →
        0 < ε →
        ∀ m, analyzeBreaking (some cs) = some m → 3 < m.volumeRatio) := by
  intro hclaim
  have h := hclaim zeroWindowCandles 0 1
    (by norm_num [zeroWindowCandles])
    (by norm_num [zeroWindowCandles, flatCandle, parseOr0])
    (by norm_num [zeroWindowCandles, flatCandle, candleAt, parseOr0])
    (by norm_num)
    (Metrics.mk 1 0 1 0 0)
    (by norm_num [analyzeBreaking, zeroWindowCandles, flatCandle, candleAt, parseOr0,
      List.range_succ])
  norm_num at h

/-- C6 amended: for every candle series of length at least 11 whose 10
trailing-window volumes all equal the same value `V` with `V > 0`, and
whose current volume is `3 * V + ε` for some `ε > 0`, the computed
`volumeRatio` is strictly greater than 3. -/
theorem volumeRatio_spike (cs : List Candle) (V ε : ℚ) (h : 11 ≤ cs.length) (hV : 0 < V)
    (hw : ∀ c ∈ (cs.drop (cs.length - 11)).take 10, parseOr0 c.volume = V)
    (hc : parseOr0 (candleAt cs (cs.length - 1)).volume = 3 * V + ε) (hε : 0 < ε) :
    ∀ m, analyzeBreaking (some cs) = some m → 3 < m.volumeRatio := by
  intro m hm
  rw [analyzeBreaking_eq cs (by omega)] at hm
  obtain rfl : m = _ := (Option.some.inj hm).symm
  have hwin : (cs.drop (cs.length - 11)).take 10 =
      (List.range 10).map (fun j => candleAt cs (cs.length - 11 + j)) :=
    take_drop_window cs 10 (cs.length - 11) (by omega)
  have hsum : ((List.range 10).map
      (fun k => parseOr0 (candleAt cs (cs.length - 11 + k)).volume)).sum = 10 * V := by
    have hmem : ∀ x ∈ (List.range 10).map
        (fun k => parseOr0 (candleAt cs (cs.length - 11 + k)).volume), x = V := by
      intro x hx
      rw [List.mem_map] at hx
      obtain ⟨j, hj, rfl⟩ := hx
      apply hw
      rw [hwin, List.mem_map]
      exact ⟨j, hj, rfl⟩
    rw [List.sum_eq_card_nsmul _ V hmem]
    simp [nsmul_eq_mul]
  have havg : ((List.range 10).map
      (fun k => parseOr0 (candleAt cs (cs.length - 11 + k)).volume)).sum / 10 = V := by
    rw [hsum]
    field_simp
  dsimp only
  rw [hc, havg, if_neg hV.ne']
  rw [lt_div_iff₀ hV]
  linarith

/-- Witness for the amended C6 on a concrete series with `V = 1` and
`ε = 1`. -/
theorem volumeRatio_spike_wit : 3 < (Metrics.mk 4 1 4 0.025 0.41).volumeRatio :=
  volumeRatio_spike witCandles 1 1 (by norm_num [witCandles]) (by norm_num)
    (by norm_num [witCandles, upCandle, parseOr0])
    (by norm_num [witCandles, upCandle, candleAt, parseOr0])
    (by norm_num)
    (Metrics.mk 4 1 4 0.025 0.41)
    (by norm_num [analyzeBreaking, witCandles, upCandle, candleAt, parseOr0, List.range_succ])

/-- Unfolding of `analyzeBreakingJs` on a series that passes the length
check. -/
theorem analyzeBreakingJs_eq (cs : List JsCandle) (h : ¬ cs.length < 11) :
    analyzeBreakingJs (some cs) = some
      { volume := jsOrZero (jsCandleAt cs (cs.length - 1)).volume
        avgVolume := jsDiv (((List.range 10).map
          (fun k => jsOrZero (jsCandleAt cs (cs.length - 11 + k)).volume)).foldl jsAdd
            (.fin 0)) (.fin 10)
        volumeRatio := jsDiv (jsOrZero (jsCandleAt cs (cs.length - 1)).volume)
          (if jsFalsy (jsDiv (((List.range 10).map
              (fun k => jsOrZero (jsCandleAt cs (cs.length - 11 + k)).volume)).foldl jsAdd
                (.fin 0)) (.fin 10))
            then .fin 1
            else jsDiv (((List.range 10).map
              (fun k => jsOrZero (jsCandleAt cs (cs.length - 11 + k)).volume)).foldl jsAdd
                (.fin 0)) (.fin 10))
        priceChange := if jsGtZero (jsOrZero (jsCandleAt cs (cs.length - 2)).close)
          then jsDiv
            (jsSub (jsOrZero (jsCandleAt cs (cs.length - 1)).close)
              (jsOrZero (jsCandleAt cs (cs.length - 2)).close))
            (jsOrZero (jsCandleAt cs (cs.length - 2)).close)
          else .fin 0
        lastClose := jsOrZero (jsCandleAt cs (cs.length - 1)).close } := by
  simp only [analyzeBreakingJs]
  rw [if_neg h]

/-- Folding `jsAdd` over finite values from a finite start is the finite
sum. -/
theorem jsFoldl_fin_map (f : ℕ → ℚ) (l : List ℕ) (a : ℚ) :
    (l.map (fun k => JsNum.fin (f k))).foldl jsAdd (.fin a) = .fin (a + (l.map f).sum) := by
  induction l generalizing a with
  | nil => simp
  | cons k l ih => simp [jsAdd, ih, add_assoc]

/-- The rational-valued analyzer is the finite-or-`NaN` fragment of the
JavaScript-number one: interpreting a rational-model series in the
JavaScript domain and analyzing it there matches the rational analysis. -/
theorem analyzeBreakingJs_refines (cs : List Candle) :
    analyzeBreakingJs (some (cs.map toJsCandle)) = (analyzeBreaking (some cs)).map toJsMetrics := by
  have hoz : ∀ v : Option ℚ, jsOrZero (toJsNum v) = .fin (parseOr0 v) := by
    intro v
    rcases v with _ | q
    · simp [toJsNum, jsOrZero, jsFalsy, parseOr0]
    · by_cases hq : q = 0 <;> simp [toJsNum, jsOrZero, jsFalsy, parseOr0, hq]
  have hct : ∀ i, jsCandleAt (cs.map toJsCandle) i = toJsCandle (candleAt cs i) := by
    intro i
    rcases hi : cs[i]? with _ | c <;>
      simp [jsCandleAt, candleAt, List.getD_eq_getElem?_getD, List.getElem?_map, hi] <;>
      rfl
  by_cases hlen : cs.length < 11
  · simp [analyzeBreakingJs, analyzeBreaking, hlen]
  · rw [analyzeBreakingJs_eq _ (by simpa using hlen), analyzeBreaking_eq _ hlen]
    simp only [List.length_map, hct, toJsCandle, hoz, Option.map_some', toJsMetrics]
    have hsum : ((List.range 10).map
        (fun k => JsNum.fin (parseOr0 (candleAt cs (cs.length - 11 + k)).volume))).foldl jsAdd
          (.fin 0) =
        .fin (((List.range 10).map
          (fun k => parseOr0 (candleAt cs (cs.length - 11 + k)).volume)).sum) := by
      rw [jsFoldl_fin_map]
      rw [zero_add]
    have havg : jsDiv (JsNum.fin (((List.range 10).map
        (fun k => parseOr0 (candleAt cs (cs.length - 11 + k)).volume)).sum)) (.fin 10) =
        .fin (((List.range 10).map
          (fun k => parseOr0 (candleAt cs (cs.length - 11 + k)).volume)).sum / 10) := by
      simp [jsDiv]
    rw [hsum, havg]
    simp only [Option.some.injEq, JsMetrics.mk.injEq]
    refine ⟨trivial, trivial, ?_, ?_, trivial⟩
    · set s := ((List.range 10).map
        (fun k => parseOr0 (candleAt cs (cs.length - 11 + k)).volume)).sum / 10 with hs
      by_cases hz : s = 0
      · simp [jsFalsy, jsDiv, hz]
      · simp [jsFalsy, jsDiv, hz]
    · set p := parseOr0 (candleAt cs (cs.length - 2)).close with hp
      by_cases hgt : 0 < p
      · have hpne : p ≠ 0 := ne_of_gt hgt
        simp [jsGtZero, hgt, jsSub, jsDiv, hpne]
      · simp [jsGtZero, hgt]

/-- C7 as stated is false: a field that parses to `Infinity` is truthy,
so `parseFloat(v) || 0` leaves it unchanged and it propagates out of the
analyzer.  On `infCandles`, whose first window volume parses to
`Infinity`, the emitted `avgVolume` is `Infinity`, and replacing the
non-finite field by `0` — what the claim says the analyzer does —
changes the analyzer's output. -/
theorem analyzeBreakingJs_cleanse_cex :
    analyzeBreakingJs (some (infCandles.map jsCleanse)) ≠ analyzeBreakingJs (some infCandles) ∧
    ((analyzeBreakingJs (some infCandles)).map JsMetrics.avgVolume).getD (.fin 0) =
      JsNum.posInf := by
  have h1 : analyzeBreakingJs (some infCandles) =
      some { volume := .fin 4, avgVolume := .posInf, volumeRatio := .fin 0,
             priceChange := .fin 0, lastClose := .fin 0 } := by
    norm_num [analyzeBreakingJs, infCandles, oneVolCandle, jsCandleAt, jsOrZero, jsFalsy,
      jsAdd, jsDiv, jsGtZero, List.range_succ]
  have h2 : analyzeBreakingJs (some (infCandles.map jsCleanse)) =
      some { volume := .fin 4, avgVolume := .fin (9 / 10), volumeRatio := .fin (40 / 9),
             priceChange := .fin 0, lastClose := .fin 0 } := by
    norm_num [analyzeBreakingJs, infCandles, oneVolCandle, jsCleanse, jsZeroNonFinite,
      jsCandleAt, jsOrZero, jsFalsy, jsAdd, jsDiv, jsGtZero, List.range_succ]
  rw [h1, h2]
  refine ⟨by simp, rfl⟩

/-- C7 amended: every candle field whose numeric parse is falsy — `NaN`,
from a missing or non-numeric value, or an actual `0` — is treated as
`0` by the analyzer and no such parse failure propagates out of it: on
every series none of whose fields parse to an infinity, replacing each
non-finite field by `0` leaves the analyzer's result unchanged.  A field
parsing to an infinity, by contrast, passes `|| 0` unchanged
(`analyzeBreakingJs_cleanse_cex`). -/
theorem analyzeBreakingJs_cleanse (cs : List JsCandle)
    (h : ∀ c ∈ cs, jsFiniteOrNan c.close = true ∧ jsFiniteOrNan c.volume = true) :
    analyzeBreakingJs (some (cs.map jsCleanse)) = analyzeBreakingJs (some cs) := by
  have key : ∀ v : JsNum, jsFiniteOrNan v = true →
      jsOrZero (jsZeroNonFinite v) = jsOrZero v := by
    intro v hv
    cases v with
    | nan => simp [jsOrZero, jsZeroNonFinite, jsFalsy]
    | posInf => simp [jsFiniteOrNan] at hv
    | negInf => simp [jsFiniteOrNan] at hv
    | fin q => simp [jsZeroNonFinite]
  have hvol : ∀ i, jsOrZero (jsCandleAt (cs.map jsCleanse) i).volume =
      jsOrZero (jsCandleAt cs i).volume := by
    intro i
    rcases hi : cs[i]? with _ | c
    · simp [jsCandleAt, List.getD_eq_getElem?_getD, List.getElem?_map, hi]
    · have hc := h c (List.getElem?_mem hi)
      simp only [jsCandleAt, List.getD_eq_getElem?_getD, List.getElem?_map, hi,
        Option.map_some', Option.getD_some, jsCleanse]
      exact key _ hc.2
  have hclose : ∀ i, jsOrZero (jsCandleAt (cs.map jsCleanse) i).close =
      jsOrZero (jsCandleAt cs i).close := by
    intro i
    rcases hi : cs[i]? with _ | c
    · simp [jsCandleAt, List.getD_eq_getElem?_getD, List.getElem?_map, hi]
    · have hc := h c (List.getElem?_mem hi)
      simp only [jsCandleAt, List.getD_eq_getElem?_getD, List.getElem?_map, hi,
        Option.map_some', Option.getD_some, jsCleanse]
      exact key _ hc.1
  by_cases hlen : cs.length < 11
  · simp [analyzeBreakingJs, hlen]
  · rw [analyzeBreakingJs_eq _ (by simpa using hlen), analyzeBreakingJs_eq _ hlen]
    simp only [List.length_map, hvol, hclose]

/-- Witness for the amended C7 on a concrete series with a failed
(`NaN`) parse and no infinities. -/
theorem analyzeBreakingJs_cleanse_wit :
    analyzeBreakingJs (some (jsNanCandles.map jsCleanse)) =
      analyzeBreakingJs (some jsNanCandles) :=
  analyzeBreakingJs_cleanse jsNanCandles (by decide)

/-- The comparator relation is transitive, as required by the stable-sort
lemmas. -/
theorem marketLE_trans (a b c : Row) (hab : marketLE a b = true) (hbc : marketLE b c = true) :
    marketLE a c = true := by
  cases ha : a.isBreaking <;> cases hb : b.isBreaking <;> cases hc : c.isBreaking <;>
    simp_all [marketLE] <;> linarith

/-- The comparator relation is total, as required by the stable-sort
lemmas. -/
theorem marketLE_total (a b : Row) : (marketLE a b || marketLE b a) = true := by
  by_cases h : a.isBreaking = b.isBreaking
  · unfold marketLE
    rw [if_pos h, if_pos h.symm]
    rcases le_total a.volumeNow b.volumeNow with hv | hv <;> simp [hv]
  · cases ha : a.isBreaking <;> cases hb : b.isBreaking <;> simp_all [marketLE]

/-- C8: the comparator orders rows by `isBreaking` descending and then by
`volumeNow` descending; the final sequence is sorted under it, is a
permutation of the analyzed rows, ties preserve fetch order (stability),
and on the concrete markets A (breaking, volume 10), B (not breaking,
volume 1000), C (breaking, volume 5), fetched in order A, B, C, the
output order is A, C, B. -/
theorem sortMarkets_spec (l : List Row) :
    (∀ a b : Row, marketLE a b = true ↔
      ((a.isBreaking = true ∧ b.isBreaking = false) ∨
        (a.isBreaking = b.isBreaking ∧ b.volumeNow ≤ a.volumeNow))) ∧
    List.Pairwise (fun a b => marketLE a b = true) (sortMarkets l) ∧
    (sortMarkets l).Perm l ∧
    (∀ a b : Row, marketLE a b = true → [a, b].Sublist l → [a, b].Sublist (sortMarkets l)) ∧
    sortMarkets [rowA, rowB, rowC] = [rowA, rowC, rowB] := by
  refine ⟨?_, ?_, ?_, ?_, ?_⟩
  · intro a b
    cases ha : a.isBreaking <;> cases hb : b.isBreaking <;> simp [marketLE, ha, hb]
  · exact List.sorted_mergeSort (fun x y z => marketLE_trans x y z) marketLE_total l
  · exact List.mergeSort_perm l marketLE
  · intro a b hab hsub
    exact List.mergeSort_stable_pair (fun x y z => marketLE_trans x y z) marketLE_total hab hsub
  · have h1 : marketLE rowA rowB = true := by norm_num [marketLE, rowA, rowB]
    have h2 : marketLE rowA rowC = true := by norm_num [marketLE, rowA, rowC]
    have h3 : marketLE rowB rowC = false := by norm_num [marketLE, rowB, rowC]
    have h4 : marketLE rowC rowB = true := by norm_num [marketLE, rowB, rowC]
    simp [sortMarkets, List.mergeSort, h1, h2, h3, h4]

/-- Witness for C8: stability on a concrete tie, the breaking pair A, C
of the example list. -/
theorem sortMarkets_spec_wit : [rowA, rowC].Sublist (sortMarkets [rowA, rowB, rowC]) :=
  (sortMarkets_spec [rowA, rowB, rowC]).2.2.2.1 rowA rowC
    (by norm_num [marketLE, rowA, rowC])
    (by simp)

/-- C9: when credentials are absent or the upstream market-list call
fails, the run still emits the example dataset, which is non-empty and
internally consistent: `breakingCount` equals the number of entries with
`isBreaking` true and `totalMarkets` equals the number of entries. -/
theorem runOutput_fallback (credsPresent : Bool) (upstream : Option (List MarketInput))
    (h : credsPresent = false ∨ upstream = none) :
    runOutput credsPresent upstream = mockReport ∧
    mockReport.markets ≠ [] ∧
    mockReport.breakingCount = (mockReport.markets.filter (fun r => r.isBreaking)).length ∧
    mockReport.totalMarkets = mockReport.markets.length := by
  refine ⟨?_, by simp [mockReport], rfl, rfl⟩
  rcases h with h | h
  · simp [runOutput, h]
  · rcases hc : credsPresent with _ | _ <;> simp [runOutput, h, hc]

/-- Witness for C9 with both fallback triggers active. -/
theorem runOutput_fallback_wit : runOutput false none = mockReport :=
  (runOutput_fallback false none (Or.inl rfl)).1

/-- C10: the analyzer's result depends only on the final 11 candles: two
series of length at least 11 that agree on their final 11 candles yield
equal metrics, regardless of earlier candles or total length. -/
theorem analyzeBreaking_last11 (cs₁ cs₂ : List Candle)
    (h₁ : 11 ≤ cs₁.length) (h₂ : 11 ≤ cs₂.length)
    (hagree : cs₁.drop (cs₁.length - 11) = cs₂.drop (cs₂.length - 11)) :
    analyzeBreaking (some cs₁) = analyzeBreaking (some cs₂) := by
  have key : ∀ cs : List Candle, 11 ≤ cs.length →
      analyzeBreaking (some cs) = analyzeBreaking (some (cs.drop (cs.length - 11))) := by
    intro cs h
    have hlen : (cs.drop (cs.length - 11)).length = 11 := by
      rw [List.length_drop]
      omega
    have hca : ∀ j, candleAt (cs.drop (cs.length - 11)) j =
        candleAt cs (cs.length - 11 + j) := by
      intro j
      simp [candleAt, List.getD_eq_getElem?_getD, List.getElem?_drop]
    rw [analyzeBreaking_eq cs (by omega), analyzeBreaking_eq _ (by rw [hlen]; omega)]
    simp only [hlen, hca]
    rw [show cs.length - 11 + (11 - 1) = cs.length - 1 from by omega,
      show cs.length - 11 + (11 - 2) = cs.length - 2 from by omega]
    simp only [Nat.sub_self, Nat.zero_add]
  rw [key cs₁ h₁, key cs₂ h₂, hagree]

/-- Witness for C10: prepending a candle to an 11-candle series does not
change the analyzer's result. -/
theorem analyzeBreaking_last11_wit :
    analyzeBreaking (some (flatCandle :: witCandles)) = analyzeBreaking (some witCandles) :=
  analyzeBreaking_last11 (flatCandle :: witCandles) witCandles
    (by norm_num [witCandles]) (by norm_num [witCandles]) rfl
